import Mathlib

/-
  Verification development for the systemd-mcp NEVERHANG reliability layer.

  Shallow embedding of the circuit breaker, health monitor, adaptive timeout
  and persistence helpers.  Timestamps (milliseconds since epoch) are
  modelled as Int, durations and counters as Nat.  JavaScript Date.now()
  values are passed explicitly as a `now` argument.  Database side effects
  are modelled as explicit state: the singleton circuit_state row as a
  record, the command_history table as a list ordered newest-first (the
  insertion order under a monotone clock, matching ORDER BY executed_at
  DESC).  Console logging is not modelled.
-/

-- ===========================================================================
-- Basic types (src/unnamed/part_004)
-- ===========================================================================

inductive CommandCategory
  | status
  | query
  | action
  | heavy
  | diagnostic
deriving DecidableEq

inductive HealthStatus
  | healthy
  | degraded
  | unhealthy
deriving DecidableEq

inductive CircuitState
  | closed
  | «open»
  | half_open
deriving DecidableEq

structure NeverhangConfig where
  status_timeout_ms : Nat
  query_timeout_ms : Nat
  action_timeout_ms : Nat
  heavy_timeout_ms : Nat
  diagnostic_timeout_ms : Nat
  circuit_failure_threshold : Nat
  circuit_failure_window_ms : Nat
  circuit_open_duration_ms : Nat
  circuit_recovery_threshold : Nat
  health_check_interval_ms : Nat
  health_degraded_interval_ms : Nat
  health_check_timeout_ms : Nat
  adaptive_timeout : Bool
deriving DecidableEq

def DEFAULT_NEVERHANG_CONFIG : NeverhangConfig :=
  { status_timeout_ms := 5000
    query_timeout_ms := 10000
    action_timeout_ms := 30000
    heavy_timeout_ms := 60000
    diagnostic_timeout_ms := 90000
    circuit_failure_threshold := 5
    circuit_failure_window_ms := 60000
    circuit_open_duration_ms := 30000
    circuit_recovery_threshold := 2
    health_check_interval_ms := 30000
    health_degraded_interval_ms := 5000
    health_check_timeout_ms := 2000
    adaptive_timeout := true }

-- ===========================================================================
-- Persistence rows (src/unnamed/part_002)
-- ===========================================================================

/-- Row of the singleton circuit_state table (interface CircuitStateRow).
    Nullable INTEGER columns become Option Int. -/
structure CircuitStateRow where
  id : Nat
  state : CircuitState
  failure_count : Nat
  last_failure_at : Option Int
  opened_at : Option Int
  recovery_successes : Nat
  updated_at : Int
deriving DecidableEq

/-- Argument of saveCircuitState: Partial of CircuitStateRow.  An absent
    field and an explicit null both reach the SQL statement as NULL (the
    source maps them with a null-coalescing operator), so for the nullable
    columns the two collapse into one `none`. -/
structure CircuitUpdate where
  state : Option CircuitState
  failure_count : Option Nat
  last_failure_at : Option Int
  opened_at : Option Int
  recovery_successes : Option Nat
deriving DecidableEq

/-- saveCircuitState (src/unnamed/part_002 lines 1352-1375).  The UPDATE
    uses COALESCE for state, failure_count and recovery_successes, but
    writes last_failure_at and opened_at directly; updated_at is always
    set to Date.now(). -/
def saveCircuitState (now : Int) (row : CircuitStateRow) (u : CircuitUpdate) :
    CircuitStateRow :=
  { id := row.id
    state := u.state.getD row.state
    failure_count := u.failure_count.getD row.failure_count
    last_failure_at := u.last_failure_at
    opened_at := u.opened_at
    recovery_successes := u.recovery_successes.getD row.recovery_successes
    updated_at := now }

/-- Row of the command_history table (columns used by the queries). -/
structure CommandRow where
  tool_name : String
  category : CommandCategory
  duration_ms : Nat
  success : Bool
  error_type : Option String
  executed_at : Int
deriving DecidableEq

/-- Insertion sort, ascending.  Stands in for the JavaScript
    rows.sort with a numeric ascending comparator: on a list of numbers
    every correct sort yields the same list. -/
def insertAsc (x : Nat) : List Nat → List Nat
  | [] => [x]
  | y :: ys => if x ≤ y then x :: y :: ys else y :: insertAsc x ys

def sortAsc (l : List Nat) : List Nat := l.foldr insertAsc []

/-- getP95Latency (src/unnamed/part_002 lines 1416-1434).  The history list
    is ordered newest-first, so WHERE / ORDER BY executed_at DESC / LIMIT 100
    is filter followed by take 100.  Math.floor of length times 0.95 equals
    length * 95 / 100 in Nat for lengths up to 100. -/
def getP95Latency (history : List CommandRow) (category : CommandCategory) :
    Option Nat :=
  let rows :=
    ((history.filter (fun r => decide (r.category = category) && r.success)).take
        100).map (fun r => r.duration_ms)
  if rows.length < 10 then none
  else
    let sorted := sortAsc rows
    some (sorted.getD (sorted.length * 95 / 100) 0)

/-- Follows the wording of the spec for queryP95: the qualifying samples are
    the successful outcomes of the category; if fewer than 10 exist the
    result is the insufficient-data value (none, never zero); otherwise the
    95th-percentile duration over the most recent at most 100 qualifying
    outcomes, ordered by recency. -/
def queryP95_spec (history : List CommandRow) (category : CommandCategory) :
    Option Nat :=
  let qualifying := history.filter (fun r => r.success && decide (r.category = category))
  if qualifying.length < 10 then none
  else
    let recent := (qualifying.take 100).map (fun r => r.duration_ms)
    let sorted := sortAsc recent
    some (sorted.getD (sorted.length * 95 / 100) 0)

-- ===========================================================================
-- Circuit breaker (src/unnamed/part_004 lines 293-445)
-- ===========================================================================

structure CircuitBreakerState where
  state : CircuitState
  failures : List Int
  opened_at : Option Int
  half_open_successes : Nat
deriving DecidableEq

/-- cleanOldFailures (lines 419-422): keep only timestamps strictly newer
    than now minus the failure window. -/
def cleanOldFailures (cfg : NeverhangConfig) (now : Int)
    (s : CircuitBreakerState) : CircuitBreakerState :=
  { s with
    failures :=
      s.failures.filter
        (fun t => decide (now - (cfg.circuit_failure_window_ms : Int) < t)) }

/-- CircuitBreaker.recordSuccess (lines 377-390).  The persist call only
    writes the same in-memory state to the database and is not modelled
    here (saveCircuitState is modelled separately). -/
def CircuitBreaker.recordSuccess (cfg : NeverhangConfig)
    (s : CircuitBreakerState) : CircuitBreakerState :=
  if s.state = CircuitState.half_open then
    let s1 := { s with half_open_successes := s.half_open_successes + 1 }
    if cfg.circuit_recovery_threshold ≤ s1.half_open_successes then
      { s1 with
        state := CircuitState.closed
        failures := []
        opened_at := none }
    else s1
  else s

/-- CircuitBreaker.recordFailure (lines 392-417): early return when the
    failure is circuit-exempt; otherwise push Date.now(), prune the window,
    then branch on the current state. -/
def CircuitBreaker.recordFailure (cfg : NeverhangConfig) (now : Int)
    (excludeFromCircuit : Bool) (s : CircuitBreakerState) :
    CircuitBreakerState :=
  if excludeFromCircuit then s
  else
    let s1 := cleanOldFailures cfg now { s with failures := s.failures ++ [now] }
    if s1.state = CircuitState.half_open then
      { s1 with state := CircuitState.«open», opened_at := some now }
    else
      if s1.state = CircuitState.closed ∧
          cfg.circuit_failure_threshold ≤ s1.failures.length then
        { s1 with state := CircuitState.«open», opened_at := some now }
      else s1

/-- CircuitBreaker.canExecute (lines 351-375), returning the decision
    together with the possibly updated state.  The in-memory opened_at is
    a Date object in the source and hence always truthy when present, so
    only presence is tested here. -/
def CircuitBreaker.canExecute (cfg : NeverhangConfig) (now : Int)
    (s : CircuitBreakerState) : Bool × CircuitBreakerState :=
  let s1 := cleanOldFailures cfg now s
  match s1.state with
  | CircuitState.closed => (true, s1)
  | CircuitState.«open» =>
      match s1.opened_at with
      | some t =>
          if (cfg.circuit_open_duration_ms : Int) ≤ now - t then
            (true,
              { s1 with
                state := CircuitState.half_open
                half_open_successes := 0 })
          else (false, s1)
      | none => (false, s1)
  | CircuitState.half_open => (true, s1)

/-- JavaScript truthiness of a nullable number: null and 0 are falsy. -/
def truthyNum : Option Int → Bool
  | some t => decide (t ≠ 0)
  | none => false

/-- CircuitBreaker.hydrateState (lines 316-337).  The saved opened_at is a
    raw number from the database, so the truthiness test rejects both null
    and 0.  The fallthrough keeps the saved state, an empty failure list,
    the saved opened_at and the saved recovery_successes. -/
def CircuitBreaker.hydrateState (cfg : NeverhangConfig) (now : Int)
    (saved : CircuitStateRow) : CircuitBreakerState :=
  if saved.state = CircuitState.«open» ∧ truthyNum saved.opened_at = true then
    if (cfg.circuit_open_duration_ms : Int) ≤ now - saved.opened_at.getD 0 then
      { state := CircuitState.half_open
        failures := []
        opened_at := none
        half_open_successes := 0 }
    else
      { state := saved.state
        failures := []
        opened_at := saved.opened_at
        half_open_successes := saved.recovery_successes }
  else
    { state := saved.state
      failures := []
      opened_at := saved.opened_at
      half_open_successes := saved.recovery_successes }

/-- CircuitBreaker.getRecentFailures (lines 441-444). -/
def CircuitBreaker.getRecentFailures (cfg : NeverhangConfig) (now : Int)
    (s : CircuitBreakerState) : Nat :=
  (cleanOldFailures cfg now s).failures.length

-- ===========================================================================
-- Circuit breaker event sequences
-- ===========================================================================

/-- One recordSuccess or recordFailure call; a failure carries the
    Date.now() at which it is recorded and its circuit-exempt flag. -/
inductive CircuitEvent
  | success
  | failure (now : Int) (excludeFromCircuit : Bool)
deriving DecidableEq

def circuitStep (cfg : NeverhangConfig) (s : CircuitBreakerState) :
    CircuitEvent → CircuitBreakerState
  | CircuitEvent.success => CircuitBreaker.recordSuccess cfg s
  | CircuitEvent.failure now ex => CircuitBreaker.recordFailure cfg now ex s

def runCircuit (cfg : NeverhangConfig) (s : CircuitBreakerState)
    (es : List CircuitEvent) : CircuitBreakerState :=
  es.foldl (circuitStep cfg) s

/-- Timestamps of the non-exempt failures of an event sequence, in order. -/
def nonexemptTimes : List CircuitEvent → List Int
  | [] => []
  | CircuitEvent.failure t false :: es => t :: nonexemptTimes es
  | _ :: es => nonexemptTimes es

/-- Repeated push-then-prune of failure timestamps, as recordFailure does. -/
def pushClean (w : Nat) (acc : List Int) (t : Int) : List Int :=
  (acc ++ [t]).filter (fun u => decide (t - (w : Int) < u))

def cleanFold (w : Nat) (ts : List Int) : List Int :=
  ts.foldl (pushClean w) []

/-- Follows the wording of the claim: the event at index i is a non-exempt
    failure at whose time the count of non-exempt failure timestamps within
    the trailing failure window reaches the failure threshold. -/
def openingIndex (cfg : NeverhangConfig) (es : List CircuitEvent) (i : Nat) :
    Bool :=
  match es[i]? with
  | some (CircuitEvent.failure t false) =>
      decide
        (cfg.circuit_failure_threshold ≤
          ((nonexemptTimes (es.take (i + 1))).filter
              (fun u => decide (t - (cfg.circuit_failure_window_ms : Int) < u))).length)
  | _ => false

/-- Follows the wording of the claim: some call of the sequence is a
    non-exempt failure at which the windowed failure count reaches the
    threshold. -/
def circuitOpensSpec (cfg : NeverhangConfig) (es : List CircuitEvent) : Prop :=
  ∃ i, i < es.length ∧ openingIndex cfg es i = true

instance (cfg : NeverhangConfig) (es : List CircuitEvent) :
    Decidable (circuitOpensSpec cfg es) :=
  inferInstanceAs (Decidable (∃ i, i < es.length ∧ openingIndex cfg es i = true))

-- ===========================================================================
-- Health monitor (src/unnamed/part_004 lines 145-287)
-- ===========================================================================

structure HealthState where
  status : HealthStatus
  last_check : Option Int
  last_success : Option Int
  last_failure : Option Int
  latency_ms : Int
  latency_samples : List Int
  consecutive_failures : Nat
  consecutive_successes : Nat
deriving DecidableEq

/-- Constructor state (lines 173-182): assume healthy until proven
    otherwise. -/
def initialHealthState : HealthState :=
  { status := HealthStatus.healthy
    last_check := none
    last_success := none
    last_failure := none
    latency_ms := 0
    latency_samples := []
    consecutive_failures := 0
    consecutive_successes := 0 }

/-- HealthMonitor.recordSuccess (lines 199-226).  The recordHealthCheck
    database insert only logs and is not part of the monitor state. -/
def HealthMonitor.recordSuccess (now latency_ms : Int) (s : HealthState) :
    HealthState :=
  let s1 :=
    { s with
      last_check := some now
      last_success := some now
      latency_ms := latency_ms
      consecutive_failures := 0
      consecutive_successes := s.consecutive_successes + 1 }
  let samples := s1.latency_samples ++ [latency_ms]
  let s2 :=
    { s1 with latency_samples := if 10 < samples.length then samples.drop 1 else samples }
  if s2.status = HealthStatus.unhealthy ∧ 1 ≤ s2.consecutive_successes then
    { s2 with status := HealthStatus.degraded }
  else
    if s2.status = HealthStatus.degraded ∧ 3 ≤ s2.consecutive_successes then
      { s2 with status := HealthStatus.healthy }
    else s2

/-- HealthMonitor.recordFailure (lines 228-248). -/
def HealthMonitor.recordFailure (now : Int) (s : HealthState) : HealthState :=
  let s1 :=
    { s with
      last_check := some now
      last_failure := some now
      consecutive_successes := 0
      consecutive_failures := s.consecutive_failures + 1 }
  if s1.status = HealthStatus.healthy ∧ 1 ≤ s1.consecutive_failures then
    { s1 with status := HealthStatus.degraded }
  else
    if s1.status = HealthStatus.degraded ∧ 3 ≤ s1.consecutive_failures then
      { s1 with status := HealthStatus.unhealthy }
    else s1

/-- One probe outcome: success with its measured latency, or failure. -/
inductive HealthEvent
  | succ (now latency : Int)
  | fail (now : Int)
deriving DecidableEq

def healthStep (s : HealthState) : HealthEvent → HealthState
  | HealthEvent.succ now lat => HealthMonitor.recordSuccess now lat s
  | HealthEvent.fail now => HealthMonitor.recordFailure now s

def runHealth (es : List HealthEvent) : HealthState :=
  es.foldl healthStep initialHealthState

def isFailEvent : HealthEvent → Bool
  | HealthEvent.fail _ => true
  | HealthEvent.succ _ _ => false

/-- Length of the trailing run of probe failures. -/
def trailingFailures (es : List HealthEvent) : Nat :=
  (es.reverse.takeWhile isFailEvent).length

/-- Length of the trailing run of probe successes. -/
def trailingSuccesses (es : List HealthEvent) : Nat :=
  (es.reverse.takeWhile (fun e => !isFailEvent e)).length

-- ===========================================================================
-- Adaptive timeout (src/unnamed/part_004 lines 491-564)
-- ===========================================================================

/-- AdaptiveTimeout.getBaseTimeout (lines 500-513). -/
def getBaseTimeout (cfg : NeverhangConfig) : CommandCategory → Nat
  | CommandCategory.status => cfg.status_timeout_ms
  | CommandCategory.query => cfg.query_timeout_ms
  | CommandCategory.action => cfg.action_timeout_ms
  | CommandCategory.heavy => cfg.heavy_timeout_ms
  | CommandCategory.diagnostic => cfg.diagnostic_timeout_ms

/-- Math.round of p times 1.5 for a natural p: exact for even p, and a
    half-integer rounded up (JavaScript rounds halves toward positive
    infinity) for odd p; both equal (3p + 1) / 2 in Nat division. -/
def roundTimesOneAndHalf (p : Nat) : Nat := (3 * p + 1) / 2

/-- The adaptive base of getTimeout (lines 525-539): the static category
    baseline, replaced by the learned P95 plus 50 percent when adaptive
    mode is on, sufficient samples exist and the learned value is larger. -/
def effectiveBase (cfg : NeverhangConfig) (history : List CommandRow)
    (category : CommandCategory) : Nat :=
  let base := getBaseTimeout cfg category
  if cfg.adaptive_timeout then
    match getP95Latency history category with
    | some p =>
        let learned := roundTimesOneAndHalf p
        if base < learned then learned else base
    | none => base
  else base

/-- Math.round of base times the health multiplier (lines 541-558): 1.0 for
    healthy, 0.5 for degraded, 0.25 for unhealthy.  For a natural base the
    products are exact binary fractions, so JavaScript rounding (halves up)
    gives base, (base + 1) / 2 and (base + 2) / 4 in Nat division. -/
def applyHealthMultiplier (healthStatus : HealthStatus) (base : Nat) : Nat :=
  match healthStatus with
  | HealthStatus.healthy => base
  | HealthStatus.degraded => (base + 1) / 2
  | HealthStatus.unhealthy => (base + 2) / 4

/-- AdaptiveTimeout.getTimeout (lines 515-563), timeout_ms component.  The
    human-readable reason string of the result is not modelled.  A supplied
    user override is returned unconditionally. -/
def AdaptiveTimeout.getTimeout (cfg : NeverhangConfig)
    (history : List CommandRow) (category : CommandCategory)
    (healthStatus : HealthStatus) (userOverride : Option Nat) : Nat :=
  match userOverride with
  | some o => o
  | none => applyHealthMultiplier healthStatus (effectiveBase cfg history category)

-- ===========================================================================
-- Neverhang manager (src/unnamed/part_004 lines 581-682)
-- ===========================================================================

/-- The manager state components that recordFailure touches: the circuit
    breaker, the persisted command history (newest-first) and the command
    counters. -/
structure ManagerState where
  circuit : CircuitBreakerState
  history : List CommandRow
  totalCommands : Nat
  successfulCommands : Nat
deriving DecidableEq

/-- NeverhangManager.recordFailure (lines 641-654): count the command, mark
    exactly diagnostic-category failures as circuit-exempt, update the
    circuit breaker, and append the failed outcome to command_history via
    recordCommand (executed_at = Date.now(), success = 0). -/
def NeverhangManager.recordFailure (cfg : NeverhangConfig) (now : Int)
    (toolName : String) (category : CommandCategory) (duration_ms : Nat)
    (errorType : Option String) (m : ManagerState) : ManagerState :=
  let excludeFromCircuit := decide (category = CommandCategory.diagnostic)
  { m with
    totalCommands := m.totalCommands + 1
    circuit := CircuitBreaker.recordFailure cfg now excludeFromCircuit m.circuit
    history :=
      { tool_name := toolName
        category := category
        duration_ms := duration_ms
        success := false
        error_type := errorType
        executed_at := now } :: m.history }

-- ===========================================================================
-- Concrete inputs used by witnesses and counterexamples
-- ===========================================================================

def freshClosedEx : CircuitBreakerState :=
  { state := CircuitState.closed
    failures := []
    opened_at := none
    half_open_successes := 0 }

def halfOpenEx : CircuitBreakerState :=
  { state := CircuitState.half_open
    failures := []
    opened_at := none
    half_open_successes := 0 }

def fiveFailuresEx : List CircuitEvent :=
  [CircuitEvent.failure 1000 false, CircuitEvent.failure 2000 false,
   CircuitEvent.failure 3000 false, CircuitEvent.failure 4000 false,
   CircuitEvent.failure 5000 false]

def rowEx : CircuitStateRow :=
  { id := 1
    state := CircuitState.closed
    failure_count := 3
    last_failure_at := some 500
    opened_at := some 600
    recovery_successes := 1
    updated_at := 100 }

def stateOnlyUpdateEx : CircuitUpdate :=
  { state := some CircuitState.«open»
    failure_count := none
    last_failure_at := none
    opened_at := none
    recovery_successes := none }

def emptyUpdateEx : CircuitUpdate :=
  { state := none
    failure_count := none
    last_failure_at := none
    opened_at := none
    recovery_successes := none }

def openZeroRowEx : CircuitStateRow :=
  { id := 1
    state := CircuitState.«open»
    failure_count := 5
    last_failure_at := some 0
    opened_at := some 0
    recovery_successes := 0
    updated_at := 0 }

def openStaleRowEx : CircuitStateRow :=
  { id := 1
    state := CircuitState.«open»
    failure_count := 5
    last_failure_at := some 900000
    opened_at := some 900000
    recovery_successes := 0
    updated_at := 900000 }

def queryHistoryEx : List CommandRow :=
  List.replicate 10
    { tool_name := ("systemd_journal_query" : String)
      category := CommandCategory.query
      duration_ms := 20000
      success := true
      error_type := none
      executed_at := 0 }

def managerEx : ManagerState :=
  { circuit := freshClosedEx
    history := []
    totalCommands := 0
    successfulCommands := 0 }

-- ===========================================================================
-- Theorems
-- ===========================================================================

/-- C2 counterexample: an update supplying only the state field does not
    leave last_failure_at at its previously persisted value; the column has
    no COALESCE and is overwritten with NULL. -/
theorem saveCircuit_state_only_ce :
    rowEx.last_failure_at = some 500 ∧
    ¬ ((saveCircuitState 999 rowEx stateOnlyUpdateEx).last_failure_at =
        rowEx.last_failure_at) := by
  decide

/-- C2 (amended): saveCircuitState keeps the previous persisted values of
    state, failure_count and recovery_successes when they are not supplied
    and takes the supplied value otherwise, and always refreshes updated_at
    to now; but last_failure_at and opened_at are always overwritten with
    the supplied value, or with NULL when absent. -/
theorem saveCircuit_partial_update (now : Int) (row : CircuitStateRow)
    (u : CircuitUpdate) :
    (u.state = none → (saveCircuitState now row u).state = row.state) ∧
    (∀ v, u.state = some v → (saveCircuitState now row u).state = v) ∧
    (u.failure_count = none →
      (saveCircuitState now row u).failure_count = row.failure_count) ∧
    (u.recovery_successes = none →
      (saveCircuitState now row u).recovery_successes = row.recovery_successes) ∧
    (saveCircuitState now row u).last_failure_at = u.last_failure_at ∧
    (saveCircuitState now row u).opened_at = u.opened_at ∧
    (saveCircuitState now row u).updated_at = now := by
  refine ⟨?_, ?_, ?_, ?_, rfl, rfl, rfl⟩
  · intro h; simp [saveCircuitState, h]
  · intro v h; simp [saveCircuitState, h]
  · intro h; simp [saveCircuitState, h]
  · intro h; simp [saveCircuitState, h]

/-- C2 witness: the amended theorem evaluated on a concrete row and the
    empty update. -/
theorem saveCircuit_partial_update_witness :
    (saveCircuitState 7 rowEx emptyUpdateEx).state = rowEx.state ∧
    (saveCircuitState 7 rowEx emptyUpdateEx).failure_count = rowEx.failure_count ∧
    (saveCircuitState 7 rowEx emptyUpdateEx).updated_at = 7 :=
  ⟨(saveCircuit_partial_update 7 rowEx emptyUpdateEx).1 rfl,
   (saveCircuit_partial_update 7 rowEx emptyUpdateEx).2.2.1 rfl,
   (saveCircuit_partial_update 7 rowEx emptyUpdateEx).2.2.2.2.2.2⟩

/-- C3 counterexample: with a supplied override of 1001 both health states
    return 1001, which is not exactly half. -/
theorem degraded_override_not_half_ce :
    ¬ (2 * AdaptiveTimeout.getTimeout DEFAULT_NEVERHANG_CONFIG []
          CommandCategory.query HealthStatus.degraded (some 1001) =
        AdaptiveTimeout.getTimeout DEFAULT_NEVERHANG_CONFIG []
          CommandCategory.query HealthStatus.healthy (some 1001)) := by
  decide

/-- C3 (amended): when no override is supplied, getTimeout at degraded
    health returns the healthy timeout halved and rounded half-up (exactly
    half whenever the healthy value is even); when an override is supplied
    both health states return the override unchanged. -/
theorem degraded_timeout_half_rounded (cfg : NeverhangConfig)
    (hist : List CommandRow) (cat : CommandCategory) (o : Nat) :
    AdaptiveTimeout.getTimeout cfg hist cat HealthStatus.degraded none =
      (AdaptiveTimeout.getTimeout cfg hist cat HealthStatus.healthy none + 1) / 2 ∧
    AdaptiveTimeout.getTimeout cfg hist cat HealthStatus.degraded (some o) = o ∧
    AdaptiveTimeout.getTimeout cfg hist cat HealthStatus.healthy (some o) = o :=
  ⟨rfl, rfl, rfl⟩

/-- C4 counterexample: a persisted open record whose opened_at is 0 is far
    older than the open duration, yet hydration keeps the open state
    because a zero timestamp is falsy in the source's truthiness test. -/
theorem hydrate_zero_opened_at_ce :
    openZeroRowEx.state = CircuitState.«open» ∧
    openZeroRowEx.opened_at = some 0 ∧
    (DEFAULT_NEVERHANG_CONFIG.circuit_open_duration_ms : Int) ≤ 1000000000 - 0 ∧
    (CircuitBreaker.hydrateState DEFAULT_NEVERHANG_CONFIG 1000000000
        openZeroRowEx).state = CircuitState.«open» ∧
    CircuitState.«open» ≠ CircuitState.half_open := by
  decide

/-- C4 (amended): constructing the breaker from a persisted open record
    whose opened_at is a nonzero timestamp and whose elapsed time reaches
    the open duration yields the half_open state with the recovery counter
    reset and an empty failure list, and the next canExecute call is
    allowed; a persisted opened_at of 0 is treated as absent by the
    source's truthiness test and the open state is kept.  If the elapsed
    time is still within the open duration, the persisted open state and
    opened_at are kept. -/
theorem hydrate_open_rehydrates (cfg : NeverhangConfig) (now t : Int)
    (saved : CircuitStateRow) (hst : saved.state = CircuitState.«open»)
    (hop : saved.opened_at = some t) (ht : t ≠ 0) :
    ((cfg.circuit_open_duration_ms : Int) ≤ now - t →
      CircuitBreaker.hydrateState cfg now saved =
        { state := CircuitState.half_open
          failures := []
          opened_at := none
          half_open_successes := 0 } ∧
      (CircuitBreaker.canExecute cfg now
          (CircuitBreaker.hydrateState cfg now saved)).1 = true) ∧
    (now - t < (cfg.circuit_open_duration_ms : Int) →
      (CircuitBreaker.hydrateState cfg now saved).state = CircuitState.«open» ∧
      (CircuitBreaker.hydrateState cfg now saved).opened_at = some t) := by
  constructor
  · intro hel
    have hhyd : CircuitBreaker.hydrateState cfg now saved =
        { state := CircuitState.half_open
          failures := []
          opened_at := none
          half_open_successes := 0 } := by
      unfold CircuitBreaker.hydrateState
      rw [hop]
      simp [truthyNum, hst, ht, hel]
    refine ⟨hhyd, ?_⟩
    rw [hhyd]
    rfl
  · intro hel
    unfold CircuitBreaker.hydrateState
    rw [hop]
    simp [truthyNum, hst, ht, not_le.mpr hel]

/-- C4 witness: a persisted open record opened at 900000 hydrated at time
    1000000 under the default 30000 ms open duration. -/
theorem hydrate_open_rehydrates_witness :
    CircuitBreaker.hydrateState DEFAULT_NEVERHANG_CONFIG 1000000 openStaleRowEx =
      { state := CircuitState.half_open
        failures := []
        opened_at := none
        half_open_successes := 0 } ∧
    (CircuitBreaker.canExecute DEFAULT_NEVERHANG_CONFIG 1000000
        (CircuitBreaker.hydrateState DEFAULT_NEVERHANG_CONFIG 1000000
          openStaleRowEx)).1 = true :=
  (hydrate_open_rehydrates DEFAULT_NEVERHANG_CONFIG 1000000 900000 openStaleRowEx
      rfl rfl (by decide)).1 (by decide)

/-- C6: with no override, adaptive mode enabled and a stored P95 available,
    the healthy timeout is the maximum of the static category baseline and
    the learned value (P95 times 1.5, rounded), and in particular never
    lies below the static baseline. -/
theorem adaptive_timeout_extends_baseline (cfg : NeverhangConfig)
    (hist : List CommandRow) (cat : CommandCategory) (p : Nat)
    (hadapt : cfg.adaptive_timeout = true)
    (hp : getP95Latency hist cat = some p) :
    AdaptiveTimeout.getTimeout cfg hist cat HealthStatus.healthy none =
      max (getBaseTimeout cfg cat) (roundTimesOneAndHalf p) ∧
    getBaseTimeout cfg cat ≤
      AdaptiveTimeout.getTimeout cfg hist cat HealthStatus.healthy none := by
  have hbase : effectiveBase cfg hist cat =
      max (getBaseTimeout cfg cat) (roundTimesOneAndHalf p) := by
    unfold effectiveBase
    rw [hadapt, hp]
    simp only [if_true]
    split <;> omega
  have hmain : AdaptiveTimeout.getTimeout cfg hist cat HealthStatus.healthy none =
      max (getBaseTimeout cfg cat) (roundTimesOneAndHalf p) := by
    simpa [AdaptiveTimeout.getTimeout, applyHealthMultiplier] using hbase
  exact ⟨hmain, by rw [hmain]; omega⟩

/-- C6 witness: category query with baseline 10000 ms and ten stored
    successful samples of 20000 ms yields max(10000, 30000) = 30000 ms. -/
theorem adaptive_timeout_extends_baseline_witness :
    AdaptiveTimeout.getTimeout DEFAULT_NEVERHANG_CONFIG queryHistoryEx
      CommandCategory.query HealthStatus.healthy none = 30000 :=
  ((adaptive_timeout_extends_baseline DEFAULT_NEVERHANG_CONFIG queryHistoryEx
      CommandCategory.query 20000 rfl (by decide)).1).trans (by decide)

/-- C8: getP95Latency coincides with the spec description of queryP95: the
    insufficient-data value exactly when fewer than 10 successful outcomes
    of the category exist, and otherwise the 95th-percentile duration over
    the most recent at most 100 successful outcomes, failed outcomes never
    contributing. -/
theorem getP95Latency_matches_spec (hist : List CommandRow)
    (cat : CommandCategory) :
    getP95Latency hist cat = queryP95_spec hist cat := by
  have hfil : hist.filter (fun r => decide (r.category = cat) && r.success) =
      hist.filter (fun r => r.success && decide (r.category = cat)) := by
    apply List.filter_congr
    intro r _
    exact Bool.and_comm (decide (r.category = cat)) r.success
  simp only [getP95Latency, queryP95_spec]
  rw [hfil]
  set q := hist.filter (fun r => r.success && decide (r.category = cat)) with hq
  have hlen : ((q.take 100).map (fun r => r.duration_ms)).length =
      min 100 q.length := by
    simp [List.length_take]
  by_cases hcase : q.length < 10
  · have h1 : ((q.take 100).map (fun r => r.duration_ms)).length < 10 := by
      rw [hlen]; omega
    simp [h1, hcase]
  · have h1 : ¬ ((q.take 100).map (fun r => r.duration_ms)).length < 10 := by
      rw [hlen]; omega
    simp [h1, hcase]

/-- C9: a circuit-exempt failure leaves the breaker state fully unchanged;
    the manager still appends the failed outcome to the persisted command
    history, and marks exactly the diagnostic category as circuit-exempt. -/
theorem diagnostic_failures_circuit_exempt (cfg : NeverhangConfig) (now : Int)
    (tool : String) (cat : CommandCategory) (dur : Nat)
    (etype : Option String) (m : ManagerState) :
    (∀ cb : CircuitBreakerState,
      CircuitBreaker.recordFailure cfg now true cb = cb) ∧
    (NeverhangManager.recordFailure cfg now tool CommandCategory.diagnostic dur
        etype m).circuit = m.circuit ∧
    (NeverhangManager.recordFailure cfg now tool cat dur etype m).history =
      { tool_name := tool
        category := cat
        duration_ms := dur
        success := false
        error_type := etype
        executed_at := now } :: m.history ∧
    (cat ≠ CommandCategory.diagnostic →
      (NeverhangManager.recordFailure cfg now tool cat dur etype m).circuit =
        CircuitBreaker.recordFailure cfg now false m.circuit) := by
  refine ⟨fun cb => rfl, rfl, rfl, ?_⟩
  intro h
  simp [NeverhangManager.recordFailure, h]

-- General run lemmas, shared by several claims.

theorem runCircuit_nil (cfg : NeverhangConfig) (s : CircuitBreakerState) :
    runCircuit cfg s [] = s := rfl

theorem runCircuit_cons (cfg : NeverhangConfig) (s : CircuitBreakerState)
    (e : CircuitEvent) (es : List CircuitEvent) :
    runCircuit cfg s (e :: es) = runCircuit cfg (circuitStep cfg s e) es := rfl

theorem runCircuit_append (cfg : NeverhangConfig) (s : CircuitBreakerState)
    (es es' : List CircuitEvent) :
    runCircuit cfg s (es ++ es') = runCircuit cfg (runCircuit cfg s es) es' :=
  List.foldl_append _ _ _ _

theorem recordSuccess_of_not_half_open (cfg : NeverhangConfig)
    (s : CircuitBreakerState) (h : ¬ s.state = CircuitState.half_open) :
    CircuitBreaker.recordSuccess cfg s = s := by
  unfold CircuitBreaker.recordSuccess
  exact if_neg h

theorem recordFailure_exempt_id (cfg : NeverhangConfig) (now : Int)
    (s : CircuitBreakerState) :
    CircuitBreaker.recordFailure cfg now true s = s := rfl

theorem length_pushClean_le (w : Nat) (acc : List Int) (t : Int) :
    (pushClean w acc t).length ≤ acc.length + 1 := by
  unfold pushClean
  exact (List.length_filter_le _ _).trans (by simp)

-- Runs of consecutive recordSuccess calls, for the half-open analysis.

theorem runSucc_closed (cfg : NeverhangConfig) :
    ∀ (n : Nat) (s : CircuitBreakerState), s.state = CircuitState.closed →
      runCircuit cfg s (List.replicate n CircuitEvent.success) = s := by
  intro n
  induction n with
  | zero => intro s _; rfl
  | succ n ih =>
    intro s h
    rw [List.replicate_succ, runCircuit_cons]
    have hstep : circuitStep cfg s CircuitEvent.success = s :=
      recordSuccess_of_not_half_open cfg s (by rw [h]; exact fun hc => nomatch hc)
    rw [hstep]
    exact ih s h

theorem runSucc_below (cfg : NeverhangConfig) :
    ∀ (n : Nat) (s : CircuitBreakerState), s.state = CircuitState.half_open →
      s.half_open_successes + n < cfg.circuit_recovery_threshold →
      runCircuit cfg s (List.replicate n CircuitEvent.success) =
        { s with half_open_successes := s.half_open_successes + n } := by
  intro n
  induction n with
  | zero => intro s _ _; rfl
  | succ n ih =>
    intro s hs hlt
    rw [List.replicate_succ, runCircuit_cons]
    have hstep : circuitStep cfg s CircuitEvent.success =
        { s with half_open_successes := s.half_open_successes + 1 } := by
      show CircuitBreaker.recordSuccess cfg s = _
      unfold CircuitBreaker.recordSuccess
      rw [if_pos hs, if_neg (by
        show ¬ cfg.circuit_recovery_threshold ≤ s.half_open_successes + 1
        omega)]
    rw [hstep, ih { s with half_open_successes := s.half_open_successes + 1 } hs
        (by show s.half_open_successes + 1 + n < cfg.circuit_recovery_threshold
            omega)]
    have harith : s.half_open_successes + 1 + n = s.half_open_successes + (n + 1) := by
      omega
    show CircuitBreakerState.mk s.state s.failures s.opened_at
        (s.half_open_successes + 1 + n) = _
    rw [harith]

theorem runSucc_reach (cfg : NeverhangConfig) :
    ∀ (n : Nat) (s : CircuitBreakerState), s.state = CircuitState.half_open →
      s.half_open_successes < cfg.circuit_recovery_threshold →
      cfg.circuit_recovery_threshold ≤ s.half_open_successes + n →
      (runCircuit cfg s (List.replicate n CircuitEvent.success)).state =
          CircuitState.closed ∧
      (runCircuit cfg s (List.replicate n CircuitEvent.success)).failures = [] ∧
      (runCircuit cfg s (List.replicate n CircuitEvent.success)).opened_at =
          none := by
  intro n
  induction n with
  | zero => intro s _ h1 h2; omega
  | succ n ih =>
    intro s hs h1 h2
    rw [List.replicate_succ, runCircuit_cons]
    by_cases hreach : cfg.circuit_recovery_threshold ≤ s.half_open_successes + 1
    · have hstep : circuitStep cfg s CircuitEvent.success =
          { s with
            state := CircuitState.closed
            failures := []
            opened_at := none
            half_open_successes := s.half_open_successes + 1 } := by
        show CircuitBreaker.recordSuccess cfg s = _
        unfold CircuitBreaker.recordSuccess
        rw [if_pos hs, if_pos hreach]
      rw [hstep, runSucc_closed cfg n _ rfl]
      exact ⟨rfl, rfl, rfl⟩
    · have hstep : circuitStep cfg s CircuitEvent.success =
          { s with half_open_successes := s.half_open_successes + 1 } := by
        show CircuitBreaker.recordSuccess cfg s = _
        unfold CircuitBreaker.recordSuccess
        rw [if_pos hs, if_neg hreach]
      rw [hstep]
      exact ih _ hs
        (by show s.half_open_successes + 1 < cfg.circuit_recovery_threshold
            omega)
        (by show cfg.circuit_recovery_threshold ≤ s.half_open_successes + 1 + n
            omega)

-- Closed circuits with too few failures stay closed.

theorem runClosed_few (cfg : NeverhangConfig) :
    ∀ (es : List CircuitEvent) (s : CircuitBreakerState),
      s.state = CircuitState.closed →
      s.failures.length + (nonexemptTimes es).length <
          cfg.circuit_failure_threshold →
      (runCircuit cfg s es).state = CircuitState.closed := by
  intro es
  induction es with
  | nil => intro s hs _; exact hs
  | cons e es ih =>
    intro s hs hlen
    cases e with
    | success =>
      rw [runCircuit_cons]
      have hstep : circuitStep cfg s CircuitEvent.success = s :=
        recordSuccess_of_not_half_open cfg s (by rw [hs]; exact fun hc => nomatch hc)
      rw [hstep]
      exact ih s hs (by simpa [nonexemptTimes] using hlen)
    | failure t ex =>
      cases ex with
      | true =>
        rw [runCircuit_cons]
        have hstep : circuitStep cfg s (CircuitEvent.failure t true) = s :=
          recordFailure_exempt_id cfg t s
        rw [hstep]
        exact ih s hs (by simpa [nonexemptTimes] using hlen)
      | false =>
        rw [runCircuit_cons]
        have hne : nonexemptTimes (CircuitEvent.failure t false :: es) =
            t :: nonexemptTimes es := rfl
        rw [hne, List.length_cons] at hlen
        have hcl : (cleanOldFailures cfg t
            { s with failures := s.failures ++ [t] }).state =
            CircuitState.closed := hs
        have hlen1 :
            (cleanOldFailures cfg t
                { s with failures := s.failures ++ [t] }).failures.length ≤
              s.failures.length + 1 :=
          length_pushClean_le cfg.circuit_failure_window_ms s.failures t
        have hstep : circuitStep cfg s (CircuitEvent.failure t false) =
            cleanOldFailures cfg t { s with failures := s.failures ++ [t] } := by
          show CircuitBreaker.recordFailure cfg t false s = _
          unfold CircuitBreaker.recordFailure
          rw [if_neg (fun hc => nomatch hc)]
          dsimp only
          rw [if_neg (fun hc => CircuitState.noConfusion (hcl.symm.trans hc))]
          rw [if_neg (by rintro ⟨-, hge⟩; omega)]
        rw [hstep]
        exact ih _ hcl (by omega)

/-- C10: hydration always starts with an empty in-memory failure list, so
    getRecentFailures returns 0 immediately after any restart, and a
    circuit persisted as closed stays closed under fewer than
    circuit_failure_threshold newly recorded non-exempt failures, whatever
    failure_count and last_failure_at were persisted. -/
theorem hydrate_empty_failures_threshold (cfg : NeverhangConfig) (now : Int)
    (saved : CircuitStateRow) (es : List CircuitEvent) :
    (CircuitBreaker.hydrateState cfg now saved).failures = [] ∧
    CircuitBreaker.getRecentFailures cfg now
        (CircuitBreaker.hydrateState cfg now saved) = 0 ∧
    (saved.state = CircuitState.closed →
      (nonexemptTimes es).length < cfg.circuit_failure_threshold →
      (runCircuit cfg (CircuitBreaker.hydrateState cfg now saved) es).state =
        CircuitState.closed) := by
  have hemp : (CircuitBreaker.hydrateState cfg now saved).failures = [] := by
    unfold CircuitBreaker.hydrateState
    split
    · split <;> rfl
    · rfl
  refine ⟨hemp, ?_, ?_⟩
  · unfold CircuitBreaker.getRecentFailures cleanOldFailures
    rw [hemp]
    rfl
  · intro hcl hfew
    have hstate : (CircuitBreaker.hydrateState cfg now saved).state =
        CircuitState.closed := by
      unfold CircuitBreaker.hydrateState
      rw [if_neg (by rintro ⟨h1, -⟩; rw [hcl] at h1; exact nomatch h1)]
      exact hcl
    exact runClosed_few cfg es _ hstate (by rw [hemp]; simpa using hfew)

/-- C10 witness: a closed persisted row hydrated at time 999 and two newly
    recorded failures under the default threshold of five. -/
theorem hydrate_empty_failures_threshold_witness :
    (CircuitBreaker.hydrateState DEFAULT_NEVERHANG_CONFIG 999 rowEx).failures =
      [] ∧
    CircuitBreaker.getRecentFailures DEFAULT_NEVERHANG_CONFIG 999
        (CircuitBreaker.hydrateState DEFAULT_NEVERHANG_CONFIG 999 rowEx) = 0 ∧
    (runCircuit DEFAULT_NEVERHANG_CONFIG
        (CircuitBreaker.hydrateState DEFAULT_NEVERHANG_CONFIG 999 rowEx)
        [CircuitEvent.failure 1000 false, CircuitEvent.failure 2000 false]).state =
      CircuitState.closed :=
  have h := hydrate_empty_failures_threshold DEFAULT_NEVERHANG_CONFIG 999 rowEx
    [CircuitEvent.failure 1000 false, CircuitEvent.failure 2000 false]
  ⟨h.1, h.2.1, h.2.2 rfl (by decide)⟩

/-- C5: from a freshly half-open circuit, recording at least the recovery
    threshold of consecutive successes closes the circuit and clears the
    failure list and opened_at; any smaller number leaves it half-open with
    the success counter equal to the number of successes; and a single
    non-exempt failure in any half-open state immediately reopens the
    circuit with opened_at reset to the current time. -/
theorem half_open_recovery_threshold (cfg : NeverhangConfig)
    (s s' : CircuitBreakerState) (n : Nat) (now : Int)
    (hs : s.state = CircuitState.half_open) (h0 : s.half_open_successes = 0)
    (hth : 0 < cfg.circuit_recovery_threshold)
    (hs' : s'.state = CircuitState.half_open) :
    (cfg.circuit_recovery_threshold ≤ n →
      (runCircuit cfg s (List.replicate n CircuitEvent.success)).state =
          CircuitState.closed ∧
      (runCircuit cfg s (List.replicate n CircuitEvent.success)).failures = [] ∧
      (runCircuit cfg s (List.replicate n CircuitEvent.success)).opened_at =
          none) ∧
    (n < cfg.circuit_recovery_threshold →
      (runCircuit cfg s (List.replicate n CircuitEvent.success)).state =
          CircuitState.half_open ∧
      (runCircuit cfg s
          (List.replicate n CircuitEvent.success)).half_open_successes = n) ∧
    ((CircuitBreaker.recordFailure cfg now false s').state =
        CircuitState.«open» ∧
      (CircuitBreaker.recordFailure cfg now false s').opened_at = some now) := by
  refine ⟨?_, ?_, ?_⟩
  · intro h
    exact runSucc_reach cfg n s hs (by omega) (by omega)
  · intro h
    rw [runSucc_below cfg n s hs (by omega)]
    exact ⟨hs, by show s.half_open_successes + n = n; omega⟩
  · have hst1 : (cleanOldFailures cfg now
        { s' with failures := s'.failures ++ [now] }).state =
        CircuitState.half_open := hs'
    show (CircuitBreaker.recordFailure cfg now false s').state = _ ∧ _
    unfold CircuitBreaker.recordFailure
    rw [if_neg (by exact fun hc => nomatch hc), if_pos hst1]
    exact ⟨rfl, rfl⟩

/-- C5 witness: the default recovery threshold of two successes closes a
    fresh half-open circuit, and a failure at time 7 reopens it with
    opened_at = 7. -/
theorem half_open_recovery_threshold_witness :
    (runCircuit DEFAULT_NEVERHANG_CONFIG halfOpenEx
        (List.replicate 2 CircuitEvent.success)).state = CircuitState.closed ∧
    (CircuitBreaker.recordFailure DEFAULT_NEVERHANG_CONFIG 7 false
        halfOpenEx).state = CircuitState.«open» ∧
    (CircuitBreaker.recordFailure DEFAULT_NEVERHANG_CONFIG 7 false
        halfOpenEx).opened_at = some 7 :=
  have h := half_open_recovery_threshold DEFAULT_NEVERHANG_CONFIG halfOpenEx
    halfOpenEx 2 7 rfl rfl (by decide) rfl
  ⟨(h.1 (by decide)).1, h.2.2.1, h.2.2.2⟩

-- Sliding-window lemmas for the circuit breaker failure list.

theorem nonexemptTimes_append (xs ys : List CircuitEvent) :
    nonexemptTimes (xs ++ ys) = nonexemptTimes xs ++ nonexemptTimes ys := by
  induction xs with
  | nil => rfl
  | cons e xs ih =>
    cases e with
    | success => simpa [nonexemptTimes] using ih
    | failure t ex => cases ex <;> simp [nonexemptTimes, ih]

theorem cleanFold_concat_eq_pushClean (w : Nat) (ts : List Int) (t : Int) :
    cleanFold w (ts ++ [t]) = pushClean w (cleanFold w ts) t := by
  unfold cleanFold
  rw [List.foldl_append]
  rfl

theorem filter_filter_cutoff (l : List Int) (c c' : Int) (h : c ≤ c') :
    (l.filter (fun u => decide (c < u))).filter (fun u => decide (c' < u)) =
      l.filter (fun u => decide (c' < u)) := by
  rw [List.filter_filter]
  apply List.filter_congr
  intro u _
  by_cases hc : c' < u
  · simp [hc, lt_of_le_of_lt h hc]
  · simp [hc]

theorem cleanFold_concat (w : Nat) :
    ∀ (ts : List Int) (t : Int), (∀ u ∈ ts, u ≤ t) → ts.Pairwise (· ≤ ·) →
      cleanFold w (ts ++ [t]) =
        (ts ++ [t]).filter
          (fun u => decide (t - (w : Int) < u)) := by
  intro ts
  induction ts using List.reverseRecOn with
  | nil => intro t _ _; rfl
  | append_singleton ts t' ih =>
    intro t hmax hp
    rw [cleanFold_concat_eq_pushClean]
    rw [List.pairwise_append] at hp
    have hmax' : ∀ u ∈ ts, u ≤ t' := fun u hu => hp.2.2 u hu t' (by simp)
    rw [ih t' hmax' hp.1]
    unfold pushClean
    rw [List.filter_append ((ts ++ [t']).filter (fun u => decide (t' - (w : Int) < u))) [t]]
    rw [filter_filter_cutoff (ts ++ [t']) (t' - (w : Int)) (t - (w : Int))
      (by have := hmax t' (by simp); omega)]
    rw [← List.filter_append (ts ++ [t']) [t]]

-- Closed and open one-failure step lemmas.

theorem recordFailure_closed_case (cfg : NeverhangConfig) (now : Int)
    (s : CircuitBreakerState) (hs : s.state = CircuitState.closed) :
    CircuitBreaker.recordFailure cfg now false s =
      (if cfg.circuit_failure_threshold ≤
          (pushClean cfg.circuit_failure_window_ms s.failures now).length then
        { state := CircuitState.«open»
          failures := pushClean cfg.circuit_failure_window_ms s.failures now
          opened_at := some now
          half_open_successes := s.half_open_successes }
      else
        { s with
          failures := pushClean cfg.circuit_failure_window_ms s.failures now }) := by
  have hcs : (cleanOldFailures cfg now
      { s with failures := s.failures ++ [now] }).state = CircuitState.closed :=
    hs
  unfold CircuitBreaker.recordFailure
  rw [if_neg (fun hc => nomatch hc)]
  dsimp only
  rw [if_neg (fun hc => CircuitState.noConfusion (hcs.symm.trans hc))]
  by_cases hth : cfg.circuit_failure_threshold ≤
      (pushClean cfg.circuit_failure_window_ms s.failures now).length
  · rw [if_pos (by exact ⟨hcs, hth⟩), if_pos hth]
    rfl
  · rw [if_neg (by exact fun hc => hth hc.2), if_neg hth]
    rfl

theorem recordFailure_open_case (cfg : NeverhangConfig) (now : Int)
    (s : CircuitBreakerState) (hs : s.state = CircuitState.«open») :
    CircuitBreaker.recordFailure cfg now false s =
      { s with
        failures := pushClean cfg.circuit_failure_window_ms s.failures now } := by
  have hcs : (cleanOldFailures cfg now
      { s with failures := s.failures ++ [now] }).state =
      CircuitState.«open» := hs
  unfold CircuitBreaker.recordFailure
  rw [if_neg (fun hc => nomatch hc)]
  dsimp only
  rw [if_neg (fun hc => CircuitState.noConfusion (hcs.symm.trans hc))]
  rw [if_neg (fun hc => CircuitState.noConfusion (hcs.symm.trans hc.1))]
  rfl

-- Opening-index bookkeeping for appended events.

theorem openingIndex_append_lt (cfg : NeverhangConfig) (es : List CircuitEvent)
    (e : CircuitEvent) (i : Nat) (hi : i < es.length) :
    openingIndex cfg (es ++ [e]) i = openingIndex cfg es i := by
  unfold openingIndex
  rw [List.getElem?_append_left hi, List.take_append_of_le_length (by omega)]

theorem openingIndex_append_self_fail (cfg : NeverhangConfig)
    (es : List CircuitEvent) (t : Int) :
    openingIndex cfg (es ++ [CircuitEvent.failure t false]) es.length =
      decide (cfg.circuit_failure_threshold ≤
        ((nonexemptTimes (es ++ [CircuitEvent.failure t false])).filter
            (fun u =>
              decide (t - (cfg.circuit_failure_window_ms : Int) < u))).length) := by
  unfold openingIndex
  rw [List.getElem?_concat_length]
  dsimp only
  rw [List.take_of_length_le (by simp)]

theorem openingIndex_append_self_other (cfg : NeverhangConfig)
    (es : List CircuitEvent) (e : CircuitEvent)
    (he : nonexemptTimes [e] = []) :
    openingIndex cfg (es ++ [e]) es.length = false := by
  unfold openingIndex
  rw [List.getElem?_concat_length]
  cases e with
  | success => rfl
  | failure t ex =>
    cases ex with
    | true => rfl
    | false => exact absurd he (by simp [nonexemptTimes])

theorem circuitOpensSpec_append (cfg : NeverhangConfig)
    (es : List CircuitEvent) (e : CircuitEvent) :
    circuitOpensSpec cfg (es ++ [e]) ↔
      circuitOpensSpec cfg es ∨
        openingIndex cfg (es ++ [e]) es.length = true := by
  constructor
  · rintro ⟨i, hi, hoi⟩
    rw [List.length_append] at hi
    by_cases hlt : i < es.length
    · exact Or.inl ⟨i, hlt, by
        rw [← openingIndex_append_lt cfg es e i hlt]; exact hoi⟩
    · right
      have hieq : i = es.length := by simp at hi; omega
      rw [← hieq]
      exact hoi
  · rintro (⟨i, hi, hoi⟩ | h)
    · exact ⟨i, by rw [List.length_append]; omega,
        by rw [openingIndex_append_lt cfg es e i hi]; exact hoi⟩
    · exact ⟨es.length, by simp, h⟩

-- The main closed-circuit invariant.

theorem runCircuit_closed_invariant (cfg : NeverhangConfig)
    (s₀ : CircuitBreakerState) (h1 : s₀.state = CircuitState.closed)
    (h2 : s₀.failures = []) :
    ∀ es : List CircuitEvent, (nonexemptTimes es).Pairwise (· ≤ ·) →
      ((runCircuit cfg s₀ es).state = CircuitState.closed ∨
        (runCircuit cfg s₀ es).state = CircuitState.«open») ∧
      (runCircuit cfg s₀ es).failures =
        cleanFold cfg.circuit_failure_window_ms (nonexemptTimes es) ∧
      ((runCircuit cfg s₀ es).state = CircuitState.«open» ↔
        circuitOpensSpec cfg es) := by
  intro es
  induction es using List.reverseRecOn with
  | nil =>
    intro _
    refine ⟨Or.inl h1, h2, ?_, ?_⟩
    · intro ho
      exact absurd (h1.symm.trans ho) (fun hc => CircuitState.noConfusion hc)
    · rintro ⟨i, hi, -⟩
      exact absurd hi (Nat.not_lt_zero i)
  | append_singleton es e ih =>
    intro hmono
    have hmono' : (nonexemptTimes es).Pairwise (· ≤ ·) := by
      rw [nonexemptTimes_append] at hmono
      exact (List.pairwise_append.mp hmono).1
    obtain ⟨hio, hif, hiff⟩ := ih hmono'
    have hrun : runCircuit cfg s₀ (es ++ [e]) =
        circuitStep cfg (runCircuit cfg s₀ es) e := by
      unfold runCircuit
      rw [List.foldl_append]
      rfl
    cases e with
    | success =>
      have hne : nonexemptTimes (es ++ [CircuitEvent.success]) =
          nonexemptTimes es := by
        rw [nonexemptTimes_append]
        simp [nonexemptTimes]
      have hstep : circuitStep cfg (runCircuit cfg s₀ es) CircuitEvent.success =
          runCircuit cfg s₀ es :=
        recordSuccess_of_not_half_open cfg _ (by
          rcases hio with h | h <;> rw [h] <;>
            exact fun hc => CircuitState.noConfusion hc)
      rw [hrun, hstep, hne]
      refine ⟨hio, hif, ?_⟩
      rw [hiff, circuitOpensSpec_append cfg es CircuitEvent.success,
        openingIndex_append_self_other cfg es CircuitEvent.success rfl]
      simp
    | failure t ex =>
      cases ex with
      | true =>
        have hne : nonexemptTimes (es ++ [CircuitEvent.failure t true]) =
            nonexemptTimes es := by
          rw [nonexemptTimes_append]
          simp [nonexemptTimes]
        have hstep : circuitStep cfg (runCircuit cfg s₀ es)
            (CircuitEvent.failure t true) = runCircuit cfg s₀ es :=
          recordFailure_exempt_id cfg t _
        rw [hrun, hstep, hne]
        refine ⟨hio, hif, ?_⟩
        rw [hiff, circuitOpensSpec_append cfg es (CircuitEvent.failure t true),
          openingIndex_append_self_other cfg es (CircuitEvent.failure t true) rfl]
        simp
      | false =>
        have hne : nonexemptTimes (es ++ [CircuitEvent.failure t false]) =
            nonexemptTimes es ++ [t] := by
          rw [nonexemptTimes_append]
          rfl
        have hmax : ∀ u ∈ nonexemptTimes es, u ≤ t := by
          rw [hne] at hmono
          exact fun u hu => (List.pairwise_append.mp hmono).2.2 u hu t (by simp)
        have hPf : pushClean cfg.circuit_failure_window_ms
            (runCircuit cfg s₀ es).failures t =
            cleanFold cfg.circuit_failure_window_ms
              (nonexemptTimes (es ++ [CircuitEvent.failure t false])) := by
          rw [hif, hne, cleanFold_concat_eq_pushClean]
        have hPwind : pushClean cfg.circuit_failure_window_ms
            (runCircuit cfg s₀ es).failures t =
            (nonexemptTimes (es ++ [CircuitEvent.failure t false])).filter
              (fun u =>
                decide (t - (cfg.circuit_failure_window_ms : Int) < u)) := by
          rw [hPf, hne]
          exact cleanFold_concat cfg.circuit_failure_window_ms
            (nonexemptTimes es) t hmax hmono'
        rcases hio with hcl | hop
        · rw [hrun,
            show circuitStep cfg (runCircuit cfg s₀ es)
                (CircuitEvent.failure t false) =
              CircuitBreaker.recordFailure cfg t false (runCircuit cfg s₀ es)
              from rfl,
            recordFailure_closed_case cfg t (runCircuit cfg s₀ es) hcl]
          by_cases hth : cfg.circuit_failure_threshold ≤
              (pushClean cfg.circuit_failure_window_ms
                (runCircuit cfg s₀ es).failures t).length
          · rw [if_pos hth]
            refine ⟨Or.inr rfl, hPf, ?_, fun _ => rfl⟩
            intro _
            rw [circuitOpensSpec_append cfg es (CircuitEvent.failure t false)]
            right
            rw [openingIndex_append_self_fail cfg es t]
            rw [hPwind] at hth
            exact decide_eq_true hth
          · rw [if_neg hth]
            refine ⟨Or.inl hcl, hPf, ?_, ?_⟩
            · intro ho
              exact absurd (hcl.symm.trans ho)
                (fun hc => CircuitState.noConfusion hc)
            · intro hsp
              exfalso
              rw [circuitOpensSpec_append cfg es
                (CircuitEvent.failure t false)] at hsp
              rcases hsp with hsp | hlast
              · exact absurd ((hiff.mpr hsp).symm.trans hcl)
                  (fun hc => CircuitState.noConfusion hc)
              · rw [openingIndex_append_self_fail cfg es t] at hlast
                rw [← hPwind] at hlast
                exact hth (of_decide_eq_true hlast)
        · rw [hrun,
            show circuitStep cfg (runCircuit cfg s₀ es)
                (CircuitEvent.failure t false) =
              CircuitBreaker.recordFailure cfg t false (runCircuit cfg s₀ es)
              from rfl,
            recordFailure_open_case cfg t (runCircuit cfg s₀ es) hop]
          refine ⟨Or.inr hop, hPf, ?_, fun _ => hop⟩
          intro _
          rw [circuitOpensSpec_append cfg es (CircuitEvent.failure t false)]
          exact Or.inl (hiff.mp hop)

/-- C1: starting from a closed circuit with no recorded failures, a
    sequence of recordFailure and recordSuccess calls with nondecreasing
    non-exempt failure times leaves the circuit open exactly when some
    non-exempt failure brought the count of non-exempt failure timestamps
    within the trailing failure window up to the failure threshold; the
    failure list is the pruned sliding window, so timestamps older than
    the window never count toward opening. -/
theorem circuit_open_iff_window_threshold (cfg : NeverhangConfig)
    (s₀ : CircuitBreakerState) (es : List CircuitEvent)
    (h1 : s₀.state = CircuitState.closed) (h2 : s₀.failures = [])
    (hmono : (nonexemptTimes es).Pairwise (· ≤ ·)) :
    (runCircuit cfg s₀ es).state = CircuitState.«open» ↔
      circuitOpensSpec cfg es :=
  (runCircuit_closed_invariant cfg s₀ h1 h2 es hmono).2.2

/-- C1 witness: five non-exempt failures inside one default failure window
    open the circuit, as the spec-side predicate confirms. -/
theorem circuit_open_iff_window_threshold_witness :
    (runCircuit DEFAULT_NEVERHANG_CONFIG freshClosedEx fiveFailuresEx).state =
      CircuitState.«open» :=
  (circuit_open_iff_window_threshold DEFAULT_NEVERHANG_CONFIG freshClosedEx
      fiveFailuresEx rfl rfl (by decide)).mpr (by decide)

-- Health monitor helper lemmas.

theorem recordFailure_counters (now : Int) (s : HealthState) :
    (HealthMonitor.recordFailure now s).consecutive_failures =
        s.consecutive_failures + 1 ∧
    (HealthMonitor.recordFailure now s).consecutive_successes = 0 := by
  unfold HealthMonitor.recordFailure
  dsimp only
  constructor <;> (split_ifs <;> rfl)

theorem recordSuccess_counters (now lat : Int) (s : HealthState) :
    (HealthMonitor.recordSuccess now lat s).consecutive_successes =
        s.consecutive_successes + 1 ∧
    (HealthMonitor.recordSuccess now lat s).consecutive_failures = 0 := by
  unfold HealthMonitor.recordSuccess
  dsimp only
  constructor <;> (split_ifs <;> rfl)

theorem recordFailure_status_healthy (now : Int) (s : HealthState)
    (h : s.status = HealthStatus.healthy) :
    (HealthMonitor.recordFailure now s).status = HealthStatus.degraded := by
  unfold HealthMonitor.recordFailure
  dsimp only
  rw [if_pos ⟨h, by omega⟩]

theorem recordFailure_status_degraded (now : Int) (s : HealthState)
    (h : s.status = HealthStatus.degraded) :
    (HealthMonitor.recordFailure now s).status =
      (if 3 ≤ s.consecutive_failures + 1 then HealthStatus.unhealthy
       else HealthStatus.degraded) := by
  unfold HealthMonitor.recordFailure
  dsimp only
  rw [if_neg (fun hc => HealthStatus.noConfusion (h.symm.trans hc.1))]
  by_cases h3 : 3 ≤ s.consecutive_failures + 1
  · rw [if_pos ⟨h, h3⟩, if_pos h3]
  · rw [if_neg (fun hc => h3 hc.2), if_neg h3]
    exact h

theorem recordFailure_status_unhealthy (now : Int) (s : HealthState)
    (h : s.status = HealthStatus.unhealthy) :
    (HealthMonitor.recordFailure now s).status = HealthStatus.unhealthy := by
  unfold HealthMonitor.recordFailure
  dsimp only
  rw [if_neg (fun hc => HealthStatus.noConfusion (h.symm.trans hc.1)),
    if_neg (fun hc => HealthStatus.noConfusion (h.symm.trans hc.1))]
  exact h

theorem recordSuccess_status_unhealthy (now lat : Int) (s : HealthState)
    (h : s.status = HealthStatus.unhealthy) :
    (HealthMonitor.recordSuccess now lat s).status = HealthStatus.degraded := by
  unfold HealthMonitor.recordSuccess
  dsimp only
  rw [if_pos ⟨h, by omega⟩]

theorem recordSuccess_status_degraded (now lat : Int) (s : HealthState)
    (h : s.status = HealthStatus.degraded) :
    (HealthMonitor.recordSuccess now lat s).status =
      (if 3 ≤ s.consecutive_successes + 1 then HealthStatus.healthy
       else HealthStatus.degraded) := by
  unfold HealthMonitor.recordSuccess
  dsimp only
  rw [if_neg (fun hc => HealthStatus.noConfusion (h.symm.trans hc.1))]
  by_cases h3 : 3 ≤ s.consecutive_successes + 1
  · rw [if_pos ⟨h, h3⟩, if_pos h3]
  · rw [if_neg (fun hc => h3 hc.2), if_neg h3]
    exact h

theorem recordSuccess_status_healthy (now lat : Int) (s : HealthState)
    (h : s.status = HealthStatus.healthy) :
    (HealthMonitor.recordSuccess now lat s).status = HealthStatus.healthy := by
  unfold HealthMonitor.recordSuccess
  dsimp only
  rw [if_neg (fun hc => HealthStatus.noConfusion (h.symm.trans hc.1)),
    if_neg (fun hc => HealthStatus.noConfusion (h.symm.trans hc.1))]
  exact h

theorem runHealth_append_fail (es : List HealthEvent) (now : Int) :
    runHealth (es ++ [HealthEvent.fail now]) =
      HealthMonitor.recordFailure now (runHealth es) := by
  unfold runHealth
  rw [List.foldl_append]
  rfl

theorem runHealth_append_succ (es : List HealthEvent) (now lat : Int) :
    runHealth (es ++ [HealthEvent.succ now lat]) =
      HealthMonitor.recordSuccess now lat (runHealth es) := by
  unfold runHealth
  rw [List.foldl_append]
  rfl

theorem trailing_append_fail (es : List HealthEvent) (now : Int) :
    trailingFailures (es ++ [HealthEvent.fail now]) = trailingFailures es + 1 ∧
    trailingSuccesses (es ++ [HealthEvent.fail now]) = 0 := by
  unfold trailingFailures trailingSuccesses
  rw [List.reverse_append]
  simp [List.takeWhile, isFailEvent, Nat.add_comm]

theorem trailing_append_succ (es : List HealthEvent) (now lat : Int) :
    trailingSuccesses (es ++ [HealthEvent.succ now lat]) =
        trailingSuccesses es + 1 ∧
    trailingFailures (es ++ [HealthEvent.succ now lat]) = 0 := by
  unfold trailingFailures trailingSuccesses
  rw [List.reverse_append]
  simp [List.takeWhile, isFailEvent, Nat.add_comm]

theorem runHealth_counters (es : List HealthEvent) :
    (runHealth es).consecutive_failures = trailingFailures es ∧
    (runHealth es).consecutive_successes = trailingSuccesses es := by
  induction es using List.reverseRecOn with
  | nil => exact ⟨rfl, rfl⟩
  | append_singleton es e ih =>
    cases e with
    | succ now lat =>
      rw [runHealth_append_succ]
      refine ⟨?_, ?_⟩
      · rw [(recordSuccess_counters now lat _).2,
          (trailing_append_succ es now lat).2]
      · rw [(recordSuccess_counters now lat _).1, ih.2,
          (trailing_append_succ es now lat).1]
    | fail now =>
      rw [runHealth_append_fail]
      refine ⟨?_, ?_⟩
      · rw [(recordFailure_counters now _).1, ih.1,
          (trailing_append_fail es now).1]
      · rw [(recordFailure_counters now _).2, (trailing_append_fail es now).2]

/-- C7: along any sequence of probe outcomes the consecutive counters equal
    the lengths of the trailing runs of failures and successes, each success
    resets the failure counter and each failure the success counter, and the
    status transitions are exactly: healthy to degraded on the first probe
    failure; degraded to unhealthy once the consecutive failures reach 3;
    unhealthy to degraded on the first probe success; degraded to healthy
    once the consecutive successes reach 3; otherwise the status is kept. -/
theorem health_status_transitions (es : List HealthEvent) (now lat : Int) :
    (runHealth es).consecutive_failures = trailingFailures es ∧
    (runHealth es).consecutive_successes = trailingSuccesses es ∧
    (HealthMonitor.recordSuccess now lat (runHealth es)).consecutive_failures =
        0 ∧
    (HealthMonitor.recordFailure now (runHealth es)).consecutive_successes =
        0 ∧
    ((runHealth es).status = HealthStatus.healthy →
      (HealthMonitor.recordFailure now (runHealth es)).status =
        HealthStatus.degraded) ∧
    ((runHealth es).status = HealthStatus.degraded →
      (HealthMonitor.recordFailure now (runHealth es)).status =
        (if 3 ≤ trailingFailures es + 1 then HealthStatus.unhealthy
         else HealthStatus.degraded)) ∧
    ((runHealth es).status = HealthStatus.unhealthy →
      (HealthMonitor.recordFailure now (runHealth es)).status =
        HealthStatus.unhealthy) ∧
    ((runHealth es).status = HealthStatus.unhealthy →
      (HealthMonitor.recordSuccess now lat (runHealth es)).status =
        HealthStatus.degraded) ∧
    ((runHealth es).status = HealthStatus.degraded →
      (HealthMonitor.recordSuccess now lat (runHealth es)).status =
        (if 3 ≤ trailingSuccesses es + 1 then HealthStatus.healthy
         else HealthStatus.degraded)) ∧
    ((runHealth es).status = HealthStatus.healthy →
      (HealthMonitor.recordSuccess now lat (runHealth es)).status =
        HealthStatus.healthy) := by
  obtain ⟨h1, h2⟩ := runHealth_counters es
  refine ⟨h1, h2, (recordSuccess_counters now lat _).2,
    (recordFailure_counters now _).2, ?_, ?_, ?_, ?_, ?_, ?_⟩
  · intro h; exact recordFailure_status_healthy now _ h
  · intro h; rw [recordFailure_status_degraded now _ h, h1]
  · intro h; exact recordFailure_status_unhealthy now _ h
  · intro h; exact recordSuccess_status_unhealthy now lat _ h
  · intro h; rw [recordSuccess_status_degraded now lat _ h, h2]
  · intro h; exact recordSuccess_status_healthy now lat _ h

/-- C7 witness: after two probe failures the status is degraded with two
    consecutive failures, and a third failure reaches the threshold of 3
    and turns the status unhealthy. -/
theorem health_status_transitions_witness :
    (HealthMonitor.recordFailure 3
        (runHealth [HealthEvent.fail 1, HealthEvent.fail 2])).status =
      HealthStatus.unhealthy ∧
    (HealthMonitor.recordSuccess 3 5
        (runHealth [HealthEvent.fail 1,
          HealthEvent.fail 2])).consecutive_failures = 0 :=
  have h := health_status_transitions [HealthEvent.fail 1, HealthEvent.fail 2] 3 5
  ⟨(h.2.2.2.2.2.1 (by decide)).trans (by decide), h.2.2.1⟩

/-- C9 witness: the exemption theorem evaluated on a fresh manager state for
    a diagnostic failure and a non-diagnostic (query) failure. -/
theorem diagnostic_failures_circuit_exempt_witness :
    (NeverhangManager.recordFailure DEFAULT_NEVERHANG_CONFIG 5 ("t")
        CommandCategory.diagnostic 10 none managerEx).circuit =
      managerEx.circuit ∧
    (NeverhangManager.recordFailure DEFAULT_NEVERHANG_CONFIG 5 ("t")
        CommandCategory.query 10 none managerEx).circuit =
      CircuitBreaker.recordFailure DEFAULT_NEVERHANG_CONFIG 5 false
        managerEx.circuit :=
  ⟨(diagnostic_failures_circuit_exempt DEFAULT_NEVERHANG_CONFIG 5 ("t")
      CommandCategory.diagnostic 10 none managerEx).2.1,
   (diagnostic_failures_circuit_exempt DEFAULT_NEVERHANG_CONFIG 5 ("t")
      CommandCategory.query 10 none managerEx).2.2.2 (by decide)⟩
